import Mathlib

/-!
Shallow embedding of `fastapi_easy_crud` (files `repository.py` and
`routes.py`): a generic CRUD repository over a relational store, plus the
default route handlers that translate repository results into HTTP
responses.

Entities are records with named, typed fields; a `Model` carries the
primary-key column names (`inspect(model_type).primary_key`).  The database
is the list of stored rows.  Machinery delegated to SQLAlchemy is embedded
by its documented semantics: `Session.get(entity, ident)` is lookup of the
row whose primary-key values equal the ident mapping, an `INSERT` that
collides with an existing primary key raises `IntegrityError` (carrying the
database message) and leaves the store unchanged, `Query.filter_by(**kw).all()`
returns the rows matching every keyword equality filter, and
`sqlmodel_update(data)` is a `setattr` loop over `data`.
-/

/-- A column value (the embedding needs only that values are comparable). -/
inductive Value
  | vInt : Int → Value
  | vStr : String → Value
  | vBool : Bool → Value
deriving DecidableEq, Repr

/-- A row / model instance: an assignment of values to field names, as an
association list (first binding wins, as in a Python dict). -/
abbrev Record := List (String × Value)

/-- Attribute access on a record: the value bound to field `k`, `none` when
the field is absent. -/
def Record.get : Record → String → Option Value
  | [], _ => none
  | p :: r, k => if p.1 = k then some p.2 else Record.get r k

/-- The stored table contents: the list of rows, in insertion order. -/
abbrev DB := List Record

/-- Table metadata for one entity type: the primary-key column names,
`[pk.name for pk in inspect(model_type).primary_key]`. -/
structure Model where
  pks : List String

/-- Embeds `BaseRepository._get_keys_dict(item)`: the dict from primary-key column
names to the item's values at those columns. -/
def keysDict (m : Model) (item : Record) : Record :=
  m.pks.filterMap (fun k => (Record.get item k).map (fun v => (k, v)))

/-- Embeds the `Session.get(entity=..., ident=keys)` row match: the row's value at every
primary-key column equals the ident dict's value there. -/
def pkMatches (m : Model) (keys : Record) (r : Record) : Bool :=
  m.pks.all (fun k => Record.get r k == Record.get keys k)

/-- One `setattr(item_db, k, v)` step on a record: overwrite the binding of
`k` when present, append it otherwise. -/
def setAttr (r : Record) (k : String) (v : Value) : Record :=
  if r.any (fun p => p.1 = k) then r.map (fun p => if p.1 = k then (k, v) else p)
  else r ++ [(k, v)]

/-- Embeds `item_db.sqlmodel_update(data)`: set each field of `data` on `item_db`
in order. -/
def sqlmodelUpdate (r : Record) (data : Record) : Record :=
  data.foldl (fun acc p => setAttr acc p.1 p.2) r

/-- Replace the first row satisfying `p` by `new` (the ORM mutates the one
fetched row in place; `Session.get`/`res[0]` fetch the first match). -/
def replaceFirst (p : Record → Bool) (new : Record) : DB → DB
  | [] => []
  | r :: rest => if p r then new :: rest else r :: replaceFirst p new rest

/-- The errors repository operations can raise: `IntegrityError` (with the
database-provided message, `e.orig.args[0]`), `NotFoundError`, the
`ValueError` for multiple matches in `patch`, and the `IndexError` from
`res[0]` on an empty list. -/
inductive RepoError
  | integrity : String → RepoError
  | notFound : RepoError
  | multiple : RepoError
  | indexError : RepoError
deriving DecidableEq, Repr

/-- The message the database attaches to a duplicate-primary-key insert
(`e.orig.args[0]` of the `IntegrityError`). -/
def dupMessage : String := "UNIQUE constraint failed"

/-- Keyword filters as received by `find`: query parameters that may be
unset (`None`). -/
abbrev Kwargs := List (String × Option Value)

/-- Embeds `\x7bk: v for k, v in kwargs.items() if v is not None\x7d`: drop the unset
parameters. -/
def stripNone (kwargs : Kwargs) : List (String × Value) :=
  kwargs.filterMap (fun p => p.2.map (fun v => (p.1, v)))

/-- A row satisfies a `filter_by(**filter_by)` clause: its value at each
filtered field equals the filter value. -/
def matchesFilters (filter_by : List (String × Value)) (r : Record) : Bool :=
  filter_by.all (fun p => Record.get r p.1 == some p.2)

/-- Python `res is None` where `res` came from `Query.all()`: a list is
never `None`, so this test is constantly false. -/
def listIsNone (_res : List Record) : Bool := false

namespace BaseRepository

/-- Embeds `BaseRepository.find`: `session.query(model).filter_by(**filter_by).all()`
after dropping `None`-valued keyword arguments. -/
def find (db : DB) (kwargs : Kwargs) : List Record :=
  db.filter (matchesFilters (stripNone kwargs))

/-- Embeds `BaseRepository.get`: `session.get(entity=self._model_type, ident=keys)` —
the first stored row whose primary key equals `keys`, if any. -/
def get (m : Model) (db : DB) (keys : Record) : Option Record :=
  db.find? (pkMatches m keys)

/-- Embeds `BaseRepository.add`: `session.add(item); session.commit()`.  The commit
raises `IntegrityError` when a stored row already has the new item's primary
key; otherwise the row is inserted. -/
def add (m : Model) (db : DB) (item : Record) : Except RepoError (Record × DB) :=
  if db.any (pkMatches m (keysDict m item)) then Except.error (RepoError.integrity dupMessage)
  else Except.ok (item, db ++ [item])

/-- Embeds `BaseRepository.delete`: fetch by key; delete the row when found, raise
`NotFoundError` otherwise (the failed transaction leaves the store as it
was). -/
def delete (m : Model) (db : DB) (keys : Record) : Except RepoError DB :=
  match get m db keys with
  | some _ => Except.ok (db.filter (fun r => !(pkMatches m keys r)))
  | none => Except.error RepoError.notFound

/-- Embeds `BaseRepository.update`: fetch by the item's own primary-key values; when
found, `sqlmodel_update` the stored row with all of the item's fields and
return it; when absent, return `None` without touching the store. -/
def update (m : Model) (db : DB) (item : Record) : Option Record × DB :=
  let keys := keysDict m item
  match get m db keys with
  | none => (none, db)
  | some item_db =>
      let updated := sqlmodelUpdate item_db item
      (some updated, replaceFirst (pkMatches m keys) updated db)

/-- Embeds `BaseRepository.patch`: `res = self.find(session, **keys)`; the
`res is None` guard cannot fire (`Query.all()` returns a list), then more
than one match raises `ValueError`, and `res[0]` on an empty list raises
`IndexError`; on a unique match the row is `sqlmodel_update`d with the
supplied attributes. -/
def patch (_m : Model) (db : DB) (keys : Record) (props : Record) :
    Except RepoError (Record × DB) :=
  let filters := keys.map (fun p => (p.1, p.2))
  let res := find db (keys.map (fun p => (p.1, some p.2)))
  if listIsNone res then Except.error RepoError.notFound
  else if res.length > 1 then Except.error RepoError.multiple
  else match res with
  | [] => Except.error RepoError.indexError
  | item_db :: _ =>
      let updated := sqlmodelUpdate item_db props
      Except.ok (updated, replaceFirst (matchesFilters filters) updated db)

end BaseRepository

/-- What a route handler produced: a 2xx payload, an `HTTPException` it
raised (status code and detail), or an exception it did not catch (which the
web framework turns into a 500, not into the handler's error mapping). -/
inductive RouteOutcome (α : Type)
  | ok : α → RouteOutcome α
  | http : Nat → String → RouteOutcome α
  | unhandled : RepoError → RouteOutcome α
deriving DecidableEq, Repr

/-- Embeds `default_get` (routes.py): fetch by primary key, 404 with detail
"Item not found" when absent. -/
def default_get (m : Model) (db : DB) (keys : Record) : RouteOutcome Record :=
  match BaseRepository.get m db keys with
  | none => RouteOutcome.http 404 "Item not found"
  | some r => RouteOutcome.ok r

/-- Embeds `default_delete` (routes.py): delete by primary key, translating
`NotFoundError` to 404; the handler returns `None` on success. -/
def default_delete (m : Model) (db : DB) (keys : Record) : RouteOutcome Unit × DB :=
  match BaseRepository.delete m db keys with
  | Except.ok db' => (RouteOutcome.ok (), db')
  | Except.error RepoError.notFound => (RouteOutcome.http 404 "Item not found", db)
  | Except.error e => (RouteOutcome.unhandled e, db)

/-- Embeds `default_post` (routes.py): create the item, translating
`IntegrityError` to 409 with the database message `e.orig.args[0]` as
detail. -/
def default_post (m : Model) (db : DB) (item : Record) : RouteOutcome Record × DB :=
  match BaseRepository.add m db item with
  | Except.ok (it, db') => (RouteOutcome.ok it, db')
  | Except.error (RepoError.integrity msg) => (RouteOutcome.http 409 msg, db)
  | Except.error e => (RouteOutcome.unhandled e, db)

/-- Embeds `default_put` (routes.py): full update; the handler catches nothing and
returns whatever `update` returned (possibly `None`). -/
def default_put (m : Model) (db : DB) (item : Record) : RouteOutcome (Option Record) × DB :=
  let res := BaseRepository.update m db item
  (RouteOutcome.ok res.1, res.2)

/-- Embeds `default_patch` (routes.py): partial update by primary key, `props`
being the request body's set fields (`item.dict(exclude_none=True)`); the
handler has no try/except, so every repository exception escapes it. -/
def default_patch (m : Model) (db : DB) (keys : Record) (props : Record) :
    RouteOutcome Record × DB :=
  match BaseRepository.patch m db keys props with
  | Except.ok (r, db') => (RouteOutcome.ok r, db')
  | Except.error e => (RouteOutcome.unhandled e, db)

/-- Embeds `default_find` (routes.py): filtered search, passing the (possibly
unset) query parameters straight to `find`. -/
def default_find (db : DB) (kwargs : Kwargs) : RouteOutcome (List Record) :=
  RouteOutcome.ok (BaseRepository.find db kwargs)

/-!
Session lifecycle (the `transactional` decorator).  When the caller supplies
no session, the wrapper opens one on the repository's engine, runs the
operation with it, commits, refreshes a truthy result (each element, for a
list result), and the `with` block closes the session; when the operation
raises, the `with` block closes the session without the wrapper's commit.
We record the session events each public operation emits when invoked with
no caller-supplied session.
-/

/-- A database session event: `Session(engine)` opened, `session.commit()`,
`session.refresh(...)`, session closed by leaving the `with` block. -/
inductive SessEvent
  | sOpen : SessEvent
  | sCommit : SessEvent
  | sRefresh : SessEvent
  | sClose : SessEvent
deriving DecidableEq, Repr

/-- The shape of the wrapped function's Python result, as far as the
wrapper's truthiness test and refresh loop observe it. -/
inductive PyRes
  | pyNone : PyRes
  | pyItem : PyRes
  | pyList : Nat → PyRes
deriving DecidableEq, Repr

/-- The refresh events after the wrapper's commit: none for a falsy result,
one for a single object, one per element for a list. -/
def resRefresh : PyRes → List SessEvent
  | PyRes.pyNone => []
  | PyRes.pyItem => [SessEvent.sRefresh]
  | PyRes.pyList n => List.replicate n SessEvent.sRefresh

/-- The `transactional` wrapper's event trace for an operation that returns
normally: open, the operation body's own events, commit, the refreshes, and
the close from leaving the `with` block. -/
def transactional (body : List SessEvent) (res : PyRes) : List SessEvent :=
  (SessEvent.sOpen :: (body ++ [SessEvent.sCommit] ++ resRefresh res)) ++ [SessEvent.sClose]

/-- Trace of `get` with no caller session: its body emits no session events
of its own; the wrapper refreshes the row when one was found. -/
def getTrace (m : Model) (db : DB) (keys : Record) : List SessEvent :=
  transactional []
    (if (BaseRepository.get m db keys).isSome then PyRes.pyItem else PyRes.pyNone)

/-- Trace of `find` with no caller session: the wrapper refreshes each row
of the returned list. -/
def findTrace (db : DB) (kwargs : Kwargs) : List SessEvent :=
  transactional [] (PyRes.pyList (BaseRepository.find db kwargs).length)

/-- Trace of `add` with no caller session: the body itself commits and
refreshes the item; on an `IntegrityError` the raising commit ends the
`with` block without the wrapper's commit. -/
def addTrace (m : Model) (db : DB) (item : Record) : List SessEvent :=
  match BaseRepository.add m db item with
  | Except.ok _ => transactional [SessEvent.sCommit, SessEvent.sRefresh] PyRes.pyItem
  | Except.error _ => [SessEvent.sOpen, SessEvent.sCommit, SessEvent.sClose]

/-- Trace of `update` with no caller session: `update` passes its session on
to `get`, so its body opens nothing; the result is refreshed when a row was
updated. -/
def updateTrace (m : Model) (db : DB) (item : Record) : List SessEvent :=
  transactional []
    (match (BaseRepository.update m db item).1 with
     | some _ => PyRes.pyItem
     | none => PyRes.pyNone)

/-- Trace of `patch` with no caller session: `patch` passes its session on
to `find`; when `patch` raises, the `with` block closes without the
wrapper's commit. -/
def patchTrace (m : Model) (db : DB) (keys : Record) (props : Record) : List SessEvent :=
  match BaseRepository.patch m db keys props with
  | Except.ok _ => transactional [] PyRes.pyItem
  | Except.error _ => [SessEvent.sOpen, SessEvent.sClose]

/-- Trace of `delete` with no caller session: `delete` calls `self.get(keys)`
WITHOUT forwarding its session, so the nested `get` runs its own
`transactional` wrapper and opens a second session; a raising
`NotFoundError` skips the outer commit. -/
def deleteTrace (m : Model) (db : DB) (keys : Record) : List SessEvent :=
  match BaseRepository.get m db keys with
  | some _ => transactional (getTrace m db keys) PyRes.pyNone
  | none => (SessEvent.sOpen :: getTrace m db keys) ++ [SessEvent.sClose]

/-- How many sessions a trace opens. -/
def sessionCount (t : List SessEvent) : Nat := t.count SessEvent.sOpen

/-- A trace is well scoped: as many closes as opens, it begins by opening a
session, it ends by closing one, and at least one commit happened. -/
abbrev wellScoped (t : List SessEvent) : Prop :=
  t.count SessEvent.sOpen = t.count SessEvent.sClose ∧
  t.head? = some SessEvent.sOpen ∧
  t.getLast? = some SessEvent.sClose ∧
  1 ≤ t.count SessEvent.sCommit

/-- Success of an `Except` as a Boolean, to state success hypotheses decidably. -/
def exceptOk (e : Except RepoError (Record × DB)) : Bool :=
  match e with
  | Except.ok _ => true
  | Except.error _ => false

/-- A concrete single-column-key model used to instantiate the theorems:
one integer primary key named "id". -/
def exM : Model := ⟨["id"]⟩

/-- A concrete stored row with id 1. -/
def row1 : Record := [("id", Value.vInt 1), ("name", Value.vStr "a")]

/-- A concrete stored row with id 2. -/
def row2 : Record := [("id", Value.vInt 2), ("name", Value.vStr "b")]

/-- A concrete two-row table. -/
def exDb : DB := [row1, row2]

/-- A concrete key dict that matches no row of `exDb`. -/
def missingKeys : Record := [("id", Value.vInt 3)]

/-!
Helper lemmas about the embedded primitives.
-/

theorem Record.get_eq_none_of_any_eq_false {r : Record} {k : String}
    (h : r.any (fun p => p.1 = k) = false) : Record.get r k = none := by
  induction r with
  | nil => rfl
  | cons p rest ih =>
      simp only [List.any_cons, Bool.or_eq_false_iff] at h
      simp only [Record.get]
      rw [if_neg (by simpa using h.1)]
      exact ih h.2

theorem Record.get_append_right {r₁ r₂ : Record} {k : String}
    (h : Record.get r₁ k = none) : Record.get (r₁ ++ r₂) k = Record.get r₂ k := by
  induction r₁ with
  | nil => rfl
  | cons p rest ih =>
      simp only [Record.get] at h ⊢
      by_cases hp : p.1 = k
      · simp [hp] at h
      · rw [if_neg hp] at h ⊢
        exact ih h

theorem get_map_overwrite {r : Record} {k : String} (v : Value)
    (h : r.any (fun p => p.1 = k) = true) :
    Record.get (r.map (fun p => if p.1 = k then (k, v) else p)) k = some v := by
  induction r with
  | nil => simp at h
  | cons p rest ih =>
      by_cases hp : p.1 = k
      · simp [Record.get, hp]
      · have h' : rest.any (fun p => p.1 = k) = true := by
          simpa [List.any_cons, hp] using h
        simp only [List.map_cons, if_neg hp, Record.get]
        exact ih h'

theorem get_map_overwrite_ne {r : Record} {k k' : String} (v : Value) (hne : k' ≠ k) :
    Record.get (r.map (fun p => if p.1 = k then (k, v) else p)) k' = Record.get r k' := by
  induction r with
  | nil => rfl
  | cons p rest ih =>
      by_cases hp : p.1 = k
      · simp only [List.map_cons, if_pos hp, Record.get]
        rw [if_neg (show ¬ k = k' from fun hh => hne hh.symm),
            if_neg (show ¬ p.1 = k' from by rw [hp]; exact fun hh => hne hh.symm)]
        exact ih
      · simp only [List.map_cons, if_neg hp, Record.get]
        by_cases hp' : p.1 = k'
        · rw [if_pos hp', if_pos hp']
        · rw [if_neg hp', if_neg hp']
          exact ih

theorem get_setAttr_self (r : Record) (k : String) (v : Value) :
    Record.get (setAttr r k v) k = some v := by
  unfold setAttr
  by_cases h : r.any (fun p => p.1 = k) = true
  · rw [if_pos h]
    exact get_map_overwrite v h
  · rw [if_neg h]
    rw [Record.get_append_right (Record.get_eq_none_of_any_eq_false (Bool.eq_false_iff.mpr h))]
    simp [Record.get]

theorem get_setAttr_ne (r : Record) (k : String) (v : Value) {k' : String}
    (hne : k' ≠ k) : Record.get (setAttr r k v) k' = Record.get r k' := by
  unfold setAttr
  by_cases h : r.any (fun p => p.1 = k) = true
  · rw [if_pos h]
    exact get_map_overwrite_ne v hne
  · rw [if_neg h]
    clear h
    induction r with
    | nil =>
        show Record.get [(k, v)] k' = Record.get [] k'
        simp [Record.get, show ¬ k = k' from fun hh => hne hh.symm]
    | cons p rest ih =>
        simp only [List.cons_append, Record.get]
        by_cases hp' : p.1 = k'
        · rw [if_pos hp', if_pos hp']
        · rw [if_neg hp', if_neg hp']
          exact ih

theorem sqlmodelUpdate_get_not_mem {data : Record} {k : String} (r : Record)
    (h : k ∉ data.map Prod.fst) :
    Record.get (sqlmodelUpdate r data) k = Record.get r k := by
  induction data generalizing r with
  | nil => rfl
  | cons p rest ih =>
      simp only [List.map_cons, List.mem_cons] at h
      push_neg at h
      show Record.get (sqlmodelUpdate (setAttr r p.1 p.2) rest) k = Record.get r k
      rw [ih _ h.2, get_setAttr_ne _ _ _ h.1]

theorem sqlmodelUpdate_get_mem {data : Record} {k : String} {v : Value} (r : Record)
    (hnd : (data.map Prod.fst).Nodup) (h : Record.get data k = some v) :
    Record.get (sqlmodelUpdate r data) k = some v := by
  induction data generalizing r with
  | nil => simp [Record.get] at h
  | cons p rest ih =>
      simp only [List.map_cons, List.nodup_cons] at hnd
      show Record.get (sqlmodelUpdate (setAttr r p.1 p.2) rest) k = some v
      by_cases hp : p.1 = k
      · have hv : some p.2 = some v := by
          simpa only [Record.get, if_pos hp] using h
        subst hp
        rw [sqlmodelUpdate_get_not_mem _ hnd.1, get_setAttr_self]
        exact hv
      · have h' : Record.get rest k = some v := by
          simpa only [Record.get, if_neg hp] using h
        exact ih _ hnd.2 h'

theorem keysDict_get_none {item : Record} {k : String} (ps : List String)
    (h : Record.get item k = none) :
    Record.get (keysDict ⟨ps⟩ item) k = none := by
  induction ps with
  | nil => rfl
  | cons p rest ih =>
      rw [keysDict] at ih ⊢
      rw [List.filterMap_cons]
      cases hp : Record.get item p with
      | none => simpa using ih
      | some w =>
          have hpk : ¬ p = k := by
            intro hh
            rw [hh, h] at hp
            cases hp
          show Record.get ((p, w) :: _) k = none
          simp only [Record.get, if_neg hpk]
          exact ih

theorem keysDict_get {m : Model} {item : Record} {k : String} (hk : k ∈ m.pks) :
    Record.get (keysDict m item) k = Record.get item k := by
  obtain ⟨ps⟩ := m
  induction ps with
  | nil => simp at hk
  | cons p rest ih =>
      rw [keysDict] at ih ⊢
      rw [List.filterMap_cons]
      cases hp : Record.get item p with
      | none =>
          by_cases hpk : p = k
          · rw [hpk] at hp
            rw [hp]
            exact keysDict_get_none rest hp
          · have hk' : k ∈ rest := by
              cases List.mem_cons.mp hk with
              | inl hh => exact absurd hh.symm hpk
              | inr hh => exact hh
            exact ih hk'
      | some w =>
          show Record.get ((p, w) :: _) k = Record.get item k
          simp only [Record.get]
          by_cases hpk : p = k
          · rw [if_pos hpk, ← hpk, hp]
          · rw [if_neg hpk]
            have hk' : k ∈ rest := by
              cases List.mem_cons.mp hk with
              | inl hh => exact absurd hh.symm hpk
              | inr hh => exact hh
            exact ih hk'

theorem pkMatches_keysDict_self (m : Model) (item : Record) :
    pkMatches m (keysDict m item) item = true := by
  rw [pkMatches, List.all_eq_true]
  intro k hk
  rw [keysDict_get hk]
  exact beq_self_eq_true _

theorem find?_replaceFirst {p : Record → Bool} {l : DB} {r u : Record}
    (h : l.find? p = some r) (hu : p u = true) :
    (replaceFirst p u l).find? p = some u := by
  induction l with
  | nil => simp at h
  | cons x rest ih =>
      by_cases hx : p x = true
      · rw [replaceFirst, if_pos hx]
        simp [List.find?_cons_of_pos, hu]
      · have h' : rest.find? p = some r := by
          rwa [List.find?_cons_of_neg _ hx] at h
        rw [replaceFirst, if_neg hx, List.find?_cons_of_neg _ hx]
        exact ih h'

theorem find?_filter_not (p : Record → Bool) (l : DB) :
    (l.filter (fun x => !(p x))).find? p = none := by
  rw [List.find?_eq_none]
  intro x hx
  have hmem := (List.mem_filter.mp hx).2
  simp only [Bool.not_eq_true'] at hmem
  simp [hmem]

theorem stripNone_filter_isSome (kwargs : Kwargs) :
    stripNone (kwargs.filter (fun p => p.2.isSome)) = stripNone kwargs := by
  induction kwargs with
  | nil => rfl
  | cons p rest ih =>
      obtain ⟨k0, v0⟩ := p
      cases v0 with
      | none =>
          simp only [stripNone, List.filter_cons, List.filterMap_cons, Option.isSome_none,
            Bool.false_eq_true, if_false, Option.map_none']
          exact ih
      | some v =>
          simp only [stripNone, List.filter_cons, List.filterMap_cons, Option.isSome_some,
            if_true, Option.map_some']
          exact congrArg (List.cons (k0, v)) ih

theorem mem_stripNone {kwargs : Kwargs} {k : String} {v : Value} :
    (k, v) ∈ stripNone kwargs ↔ (k, some v) ∈ kwargs := by
  rw [stripNone, List.mem_filterMap]
  constructor
  · rintro ⟨⟨a, b⟩, ha, hb⟩
    cases b with
    | none => simp at hb
    | some w =>
        simp only [Option.map_some'] at hb
        injection Option.some.inj hb with h1 h2
        subst h1
        subst h2
        exact ha
  · intro hkv
    exact ⟨(k, some v), hkv, rfl⟩

theorem matchesFilters_iff {fs : List (String × Value)} {r : Record} :
    matchesFilters fs r = true ↔ ∀ k v, (k, v) ∈ fs → Record.get r k = some v := by
  rw [matchesFilters, List.all_eq_true]
  constructor
  · intro h k v hkv
    have := h (k, v) hkv
    simpa using this
  · intro h p hp
    have := h p.1 p.2 hp
    simpa using this

theorem not_mem_of_get_eq_none {r : Record} {k : String} (h : Record.get r k = none) :
    k ∉ r.map Prod.fst := by
  induction r with
  | nil => simp
  | cons p rest ih =>
      rw [Record.get] at h
      by_cases hp : p.1 = k
      · rw [if_pos hp] at h
        cases h
      · rw [if_neg hp] at h
        simp only [List.map_cons, List.mem_cons]
        push_neg
        exact ⟨fun hh => hp hh.symm, ih h⟩

theorem count_resRefresh (e : SessEvent) (res : PyRes) (h : e ≠ SessEvent.sRefresh) :
    (resRefresh res).count e = 0 := by
  cases res with
  | pyNone => rfl
  | pyItem => simp [resRefresh, List.count_cons, Ne.symm h]
  | pyList n =>
      rw [resRefresh, List.count_replicate]
      simp [Ne.symm h]

theorem transactional_count_sOpen (body : List SessEvent) (res : PyRes) :
    (transactional body res).count SessEvent.sOpen = body.count SessEvent.sOpen + 1 := by
  simp [transactional, List.count_append, List.count_cons,
    count_resRefresh SessEvent.sOpen res (by decide)]

theorem transactional_count_sClose (body : List SessEvent) (res : PyRes) :
    (transactional body res).count SessEvent.sClose = body.count SessEvent.sClose + 1 := by
  simp [transactional, List.count_append, List.count_cons,
    count_resRefresh SessEvent.sClose res (by decide)]

theorem transactional_count_sCommit (body : List SessEvent) (res : PyRes) :
    (transactional body res).count SessEvent.sCommit = body.count SessEvent.sCommit + 1 := by
  simp [transactional, List.count_append, List.count_cons,
    count_resRefresh SessEvent.sCommit res (by decide)]

theorem wellScoped_transactional (body : List SessEvent) (res : PyRes)
    (hb : body.count SessEvent.sOpen = body.count SessEvent.sClose) :
    wellScoped (transactional body res) := by
  refine ⟨?_, rfl, List.getLast?_concat _, ?_⟩
  · rw [transactional_count_sOpen, transactional_count_sClose, hb]
  · rw [transactional_count_sCommit]
    omega

/-!
Claim theorems.
-/

/-- C1: the spec says a PATCH whose primary-key values match no stored
record responds with HTTP 404.  The code does not: with a stored table and
a key matching no row, `find` returns the empty list, the `res is None`
guard cannot fire, `res[0]` raises `IndexError`, and `default_patch` has no
handler mapping anything to 404 — the request ends in an unhandled
exception (a 500), never a 404, and the store is unchanged. -/
theorem patch_missing_target_is_unhandled :
    BaseRepository.find exDb [("id", some (Value.vInt 3))] = [] ∧
    default_patch exM exDb missingKeys [("name", Value.vStr "x")]
      = (RouteOutcome.unhandled RepoError.indexError, exDb) ∧
    ∀ d : String, (default_patch exM exDb missingKeys [("name", Value.vStr "x")]).1
      ≠ RouteOutcome.http 404 d := by
  refine ⟨rfl, rfl, ?_⟩
  intro d h
  have hval : (default_patch exM exDb missingKeys [("name", Value.vStr "x")]).1
      = RouteOutcome.unhandled RepoError.indexError := rfl
  rw [hval] at h
  cases h

/-- C2: every record successfully created by `add` (the POST handler's
operation) is returned by a subsequent `get` by its primary key, both at the
repository and at the route level. -/
theorem add_then_get_returns_created (m : Model) (db : DB) (item it' : Record) (db' : DB)
    (h : BaseRepository.add m db item = Except.ok (it', db')) :
    it' = item ∧ BaseRepository.get m db' (keysDict m item) = some item ∧
    default_get m db' (keysDict m item) = RouteOutcome.ok item := by
  rw [BaseRepository.add] at h
  by_cases hc : db.any (pkMatches m (keysDict m item)) = true
  · rw [if_pos hc] at h
    cases h
  · rw [if_neg hc] at h
    injection h with h'
    injection h' with h1 h2
    have hget : BaseRepository.get m db' (keysDict m item) = some item := by
      rw [← h2, BaseRepository.get, List.find?_append]
      have hnone : db.find? (pkMatches m (keysDict m item)) = none := by
        rw [List.find?_eq_none]
        intro x hx hpx
        exact hc (List.any_eq_true.mpr ⟨x, hx, hpx⟩)
      rw [hnone]
      simp [List.find?_cons_of_pos _ (pkMatches_keysDict_self m item)]
    exact ⟨h1.symm, hget, by rw [default_get, hget]⟩

/-- Witness for C2 at a concrete input: adding `row1` to the empty table and
fetching it back by its key. -/
theorem add_then_get_returns_created_w :
    BaseRepository.get exM [row1] (keysDict exM row1) = some row1 ∧
    default_get exM [row1] (keysDict exM row1) = RouteOutcome.ok row1 :=
  ⟨(add_then_get_returns_created exM [] row1 row1 [row1] rfl).2.1,
   (add_then_get_returns_created exM [] row1 row1 [row1] rfl).2.2⟩

/-- C3: a create whose primary key collides with a stored row raises
`IntegrityError`, and the POST handler turns it into HTTP 409 whose detail
is the database-provided message, leaving the store unchanged. -/
theorem post_duplicate_conflict_409 (m : Model) (db : DB) (item : Record)
    (h : db.any (pkMatches m (keysDict m item)) = true) :
    BaseRepository.add m db item = Except.error (RepoError.integrity dupMessage) ∧
    default_post m db item = (RouteOutcome.http 409 dupMessage, db) := by
  have hadd : BaseRepository.add m db item = Except.error (RepoError.integrity dupMessage) := by
    rw [BaseRepository.add, if_pos h]
  exact ⟨hadd, by rw [default_post, hadd]⟩

/-- Witness for C3 at a concrete input: re-creating `row1`, which is already
stored in `exDb`. -/
theorem post_duplicate_conflict_409_w :
    BaseRepository.add exM exDb row1 = Except.error (RepoError.integrity dupMessage) ∧
    default_post exM exDb row1 = (RouteOutcome.http 409 dupMessage, exDb) :=
  post_duplicate_conflict_409 exM exDb row1 (by decide)

/-- C4: a GET by a primary key matching no stored row responds 404, and a
DELETE by such a key responds 404 with the store unchanged. -/
theorem get_delete_missing_404 (m : Model) (db : DB) (keys : Record)
    (h : BaseRepository.get m db keys = none) :
    default_get m db keys = RouteOutcome.http 404 "Item not found" ∧
    default_delete m db keys = (RouteOutcome.http 404 "Item not found", db) := by
  constructor
  · rw [default_get, h]
  · rw [default_delete, BaseRepository.delete, h]

/-- Witness for C4 at a concrete input: key id 3 is absent from `exDb`. -/
theorem get_delete_missing_404_w :
    default_get exM exDb missingKeys = RouteOutcome.http 404 "Item not found" ∧
    default_delete exM exDb missingKeys = (RouteOutcome.http 404 "Item not found", exDb) :=
  get_delete_missing_404 exM exDb missingKeys (by decide)

/-- C5: after a successful delete of a stored record by its primary key, a
subsequent `get` by the same key returns nothing. -/
theorem delete_then_get_not_found (m : Model) (db : DB) (keys : Record) (r : Record)
    (h : BaseRepository.get m db keys = some r) :
    ∃ db', BaseRepository.delete m db keys = Except.ok db' ∧
      BaseRepository.get m db' keys = none := by
  refine ⟨db.filter (fun x => !(pkMatches m keys x)), ?_, ?_⟩
  · rw [BaseRepository.delete, h]
  · rw [BaseRepository.get]
    exact find?_filter_not _ _

/-- Witness for C5 at a concrete input: deleting `row1` from `exDb` by its
key. -/
theorem delete_then_get_not_found_w :
    ∃ db', BaseRepository.delete exM exDb [("id", Value.vInt 1)] = Except.ok db' ∧
      BaseRepository.get exM db' [("id", Value.vInt 1)] = none :=
  delete_then_get_not_found exM exDb [("id", Value.vInt 1)] row1 (by decide)

/-- C6: a successful full update (PUT) of a stored record, keyed by the
payload's primary-key values, makes a subsequent `get` by that key return
the updated row, whose value at every field of the payload is the payload's
value. -/
theorem put_then_get_reflects_update (m : Model) (db : DB) (item r : Record)
    (hnd : (item.map Prod.fst).Nodup)
    (h : BaseRepository.get m db (keysDict m item) = some r) :
    ∃ u db', BaseRepository.update m db item = (some u, db') ∧
      BaseRepository.get m db' (keysDict m item) = some u ∧
      ∀ k v, Record.get item k = some v → Record.get u k = some v := by
  have hmatch : pkMatches m (keysDict m item) (sqlmodelUpdate r item) = true := by
    rw [pkMatches, List.all_eq_true]
    intro k hk
    rw [keysDict_get hk]
    cases hv : Record.get item k with
    | some v => simp [sqlmodelUpdate_get_mem r hnd hv]
    | none =>
        have hr : pkMatches m (keysDict m item) r = true := List.find?_some h
        rw [pkMatches, List.all_eq_true] at hr
        have hrk := hr k hk
        rw [keysDict_get hk, hv] at hrk
        have hrnone : Record.get r k = none := by simpa using hrk
        rw [sqlmodelUpdate_get_not_mem r (not_mem_of_get_eq_none hv), hrnone]
        rfl
  refine ⟨sqlmodelUpdate r item,
    replaceFirst (pkMatches m (keysDict m item)) (sqlmodelUpdate r item) db, ?_, ?_, ?_⟩
  · simp [BaseRepository.update, h]
  · rw [BaseRepository.get]
    exact find?_replaceFirst h hmatch
  · intro k v hkv
    exact sqlmodelUpdate_get_mem r hnd hkv

/-- Witness for C6 at a concrete input: a PUT payload keeping key id 1 and
changing the name field. -/
theorem put_then_get_reflects_update_w :
    ∃ u db',
      BaseRepository.update exM exDb [("id", Value.vInt 1), ("name", Value.vStr "z")]
        = (some u, db') ∧
      BaseRepository.get exM db'
          (keysDict exM [("id", Value.vInt 1), ("name", Value.vStr "z")]) = some u ∧
      ∀ k v, Record.get [("id", Value.vInt 1), ("name", Value.vStr "z")] k = some v →
        Record.get u k = some v :=
  put_then_get_reflects_update exM exDb [("id", Value.vInt 1), ("name", Value.vStr "z")]
    row1 (by decide) (by decide)

/-- C7: `find` returns exactly the stored rows whose value at every supplied
(non-`None`) filter equals the filter value: every returned row is stored
and matches, and every stored matching row is returned. -/
theorem find_returns_exactly_matching (db : DB) (kwargs : Kwargs) (r : Record) :
    r ∈ BaseRepository.find db kwargs ↔
      r ∈ db ∧ ∀ k v, (k, some v) ∈ kwargs → Record.get r k = some v := by
  rw [BaseRepository.find, List.mem_filter]
  constructor
  · rintro ⟨hdb, hm⟩
    exact ⟨hdb, fun k v hkv => matchesFilters_iff.mp hm k v (mem_stripNone.mpr hkv)⟩
  · rintro ⟨hdb, hm⟩
    refine ⟨hdb, ?_⟩
    rw [matchesFilters_iff]
    intro k v hkv
    exact hm k v (mem_stripNone.mp hkv)

/-- Witness for C7 at a concrete input: filtering `exDb` on the name field
returns `row2`, and the theorem recovers that `row2` is stored with that
name value. -/
theorem find_returns_exactly_matching_w :
    row2 ∈ BaseRepository.find exDb [("name", some (Value.vStr "b"))] ∧
    Record.get row2 "name" = some (Value.vStr "b") :=
  ⟨by decide,
   ((find_returns_exactly_matching exDb [("name", some (Value.vStr "b"))] row2).mp
      (by decide)).2 "name" (Value.vStr "b") (by decide)⟩

/-- C9: a full update (PUT) whose payload's primary-key values match no
stored record raises nothing, returns `None` (the route answers with a null
body, not 404), and leaves the store unchanged. -/
theorem put_missing_target_returns_none (m : Model) (db : DB) (item : Record)
    (h : BaseRepository.get m db (keysDict m item) = none) :
    BaseRepository.update m db item = (none, db) ∧
    default_put m db item = (RouteOutcome.ok none, db) := by
  have hu : BaseRepository.update m db item = (none, db) := by
    simp [BaseRepository.update, h]
  exact ⟨hu, by rw [default_put, hu]⟩

/-- Witness for C9 at a concrete input: a PUT payload with the absent key
id 3. -/
theorem put_missing_target_returns_none_w :
    BaseRepository.update exM exDb [("id", Value.vInt 3), ("name", Value.vStr "z")]
      = (none, exDb) ∧
    default_put exM exDb [("id", Value.vInt 3), ("name", Value.vStr "z")]
      = (RouteOutcome.ok none, exDb) :=
  put_missing_target_returns_none exM exDb [("id", Value.vInt 3), ("name", Value.vStr "z")]
    (by decide)

/-- C10: `None`-valued parameters are excluded from the filter — dropping
them does not change the result — and a `find` with every parameter unset
returns all stored rows. -/
theorem find_ignores_none_params (db : DB) (kwargs : Kwargs) :
    BaseRepository.find db kwargs
        = BaseRepository.find db (kwargs.filter (fun p => p.2.isSome)) ∧
    ((∀ p ∈ kwargs, p.2 = none) → BaseRepository.find db kwargs = db) := by
  constructor
  · rw [BaseRepository.find, BaseRepository.find, stripNone_filter_isSome]
  · intro hall
    have hstrip : stripNone kwargs = [] := by
      rw [stripNone, List.filterMap_eq_nil_iff]
      intro p hp
      rw [hall p hp]
      rfl
    rw [BaseRepository.find, hstrip]
    simp [matchesFilters]

/-- Witness for C10 at concrete inputs: an unset id parameter is ignored,
and an all-unset query returns the whole table. -/
theorem find_ignores_none_params_w :
    BaseRepository.find exDb [("id", none), ("name", some (Value.vStr "b"))]
        = BaseRepository.find exDb [("name", some (Value.vStr "b"))] ∧
    BaseRepository.find exDb [("id", none), ("name", none)] = exDb :=
  ⟨(find_ignores_none_params exDb [("id", none), ("name", some (Value.vStr "b"))]).1,
   (find_ignores_none_params exDb [("id", none), ("name", none)]).2 (by decide)⟩

/-- Counterexample to C8 as stated: `delete` is a repository operation
invoked without a caller-supplied session (the DELETE route passes none),
yet a successful delete opens two database sessions, not exactly one — its
body calls `self.get(keys)` without forwarding the wrapper's session, so
the nested `get` opens its own. -/
theorem delete_opens_two_sessions_cex :
    sessionCount (deleteTrace exM exDb [("id", Value.vInt 1)]) = 2 ∧
    sessionCount (deleteTrace exM exDb [("id", Value.vInt 1)]) ≠ 1 :=
  ⟨by decide, by decide⟩

/-- C8 (amended): for `get`, `find`, `add`, `update` and (when it succeeds)
`patch`, an invocation without a caller-supplied session opens exactly one
session, which is committed and closed before the operation returns; for
`delete` the internal key lookup opens a second nested session, so exactly
two sessions are opened, each committed and closed before the operation
returns. -/
theorem single_session_per_op_except_delete (m : Model) (db : DB)
    (item keys props : Record) (kwargs : Kwargs) :
    (sessionCount (getTrace m db keys) = 1 ∧ wellScoped (getTrace m db keys)) ∧
    (sessionCount (findTrace db kwargs) = 1 ∧ wellScoped (findTrace db kwargs)) ∧
    (sessionCount (addTrace m db item) = 1 ∧ wellScoped (addTrace m db item)) ∧
    (sessionCount (updateTrace m db item) = 1 ∧ wellScoped (updateTrace m db item)) ∧
    (exceptOk (BaseRepository.patch m db keys props) = true →
      sessionCount (patchTrace m db keys props) = 1 ∧
      wellScoped (patchTrace m db keys props)) ∧
    (sessionCount (deleteTrace m db keys) = 2 ∧ wellScoped (deleteTrace m db keys)) := by
  have hone : ∀ res : PyRes, sessionCount (transactional [] res) = 1 := by
    intro res
    rw [sessionCount, transactional_count_sOpen]
    rfl
  have hws : ∀ res : PyRes, wellScoped (transactional [] res) := fun res =>
    wellScoped_transactional [] res rfl
  refine ⟨?_, ?_, ?_, ?_, ?_, ?_⟩
  · rw [getTrace]
    exact ⟨hone _, hws _⟩
  · rw [findTrace]
    exact ⟨hone _, hws _⟩
  · cases hadd : BaseRepository.add m db item with
    | ok x =>
        rw [addTrace, hadd]
        constructor
        · rw [sessionCount, transactional_count_sOpen]
          decide
        · exact wellScoped_transactional _ _ (by decide)
    | error e =>
        rw [addTrace, hadd]
        constructor
        · show sessionCount [SessEvent.sOpen, SessEvent.sCommit, SessEvent.sClose] = 1
          decide
        · show wellScoped [SessEvent.sOpen, SessEvent.sCommit, SessEvent.sClose]
          decide
  · rw [updateTrace]
    exact ⟨hone _, hws _⟩
  · intro hok
    cases hp : BaseRepository.patch m db keys props with
    | ok x =>
        rw [patchTrace, hp]
        exact ⟨hone _, hws _⟩
    | error e =>
        rw [hp] at hok
        exact Bool.noConfusion hok
  · cases hd : BaseRepository.get m db keys with
    | some r =>
        have hgt : getTrace m db keys = transactional [] PyRes.pyItem := by
          rw [getTrace, hd]
          rfl
        rw [deleteTrace, hd, hgt]
        constructor
        · rw [sessionCount, transactional_count_sOpen, transactional_count_sOpen]
          rfl
        · refine wellScoped_transactional _ _ ?_
          rw [transactional_count_sOpen, transactional_count_sClose]
          rfl
    | none =>
        have hgt : getTrace m db keys = transactional [] PyRes.pyNone := by
          rw [getTrace, hd]
          rfl
        rw [deleteTrace, hd, hgt]
        constructor
        · show sessionCount ((SessEvent.sOpen :: transactional [] PyRes.pyNone)
            ++ [SessEvent.sClose]) = 2
          decide
        · show wellScoped ((SessEvent.sOpen :: transactional [] PyRes.pyNone)
            ++ [SessEvent.sClose])
          decide

/-- Witness for C8 (amended) at concrete inputs: one session for a `get`
and a successful `patch`, two for a `delete`. -/
theorem single_session_per_op_except_delete_w :
    sessionCount (getTrace exM exDb [("id", Value.vInt 1)]) = 1 ∧
    sessionCount (patchTrace exM exDb [("id", Value.vInt 1)] [("name", Value.vStr "z")]) = 1 ∧
    sessionCount (deleteTrace exM exDb [("id", Value.vInt 1)]) = 2 := by
  have h := single_session_per_op_except_delete exM exDb row1 [("id", Value.vInt 1)]
    [("name", Value.vStr "z")] []
  exact ⟨h.1.1, (h.2.2.2.2.1 (by decide)).1, h.2.2.2.2.2.1⟩
